import Mathlib

/- Formal model of the GoalGrid agent backend: goalgrid_agent.py (Task,
   Lesson, GoalGridAgent) and app.py (the GoalGridAgent variant).

   Python strings are modelled as lists of characters, JSON documents as an
   inductive type, and the lessons_by_date mapping of the active course
   document as an association list from date strings to JSON lesson
   documents (a Python dict: at most one entry per key, insertion order
   preserved, assignment to an existing key keeps its position).

   The Groq chat-completion call is an opaque oracle, modelled as an
   Option of the returned message text (none = the network call raised).
   Functions that can raise an uncaught Python exception return Option
   results (none = the exception propagates to the caller); exceptions
   raised inside a try block of the source are mapped to the source's
   except-branch behaviour instead. -/

abbrev Str := List Char

def S (s : String) : Str := s.data

/- Characters written via code points to keep the development free of
   delimiter characters inside character literals. -/
def cQuote : Char := Char.ofNat 34
def cBackslash : Char := Char.ofNat 92
def cLBrace : Char := Char.ofNat 123
def cRBrace : Char := Char.ofNat 125
def cBacktick : Char := Char.ofNat 96
def cApos : Char := Char.ofNat 39

/- Python str.strip() whitespace (ASCII part). -/
def pySpace (c : Char) : Bool :=
  c = ' ' || c = '\t' || c = '\n' || c = '\r' || c = '\x0b' || c = '\x0c'

def dropTrail (p : Char → Bool) (s : Str) : Str :=
  (s.reverse.dropWhile p).reverse

/- Python str.strip() with no arguments. -/
def pyStrip (s : Str) : Str := dropTrail pySpace (s.dropWhile pySpace)

/- Python str.startswith(sep) / list prefix test. -/
def strPre : Str → Str → Bool
  | [], _ => true
  | _ :: _, [] => false
  | a :: as, b :: bs => a == b && strPre as bs

/- Whether sep occurs as a contiguous substring. -/
def strOccurs (sep : Str) : Str → Bool
  | [] => strPre sep []
  | c :: rest => strPre sep (c :: rest) || strOccurs sep rest

/- Python str.split(sep) for a non-empty separator: leftmost-first,
   non-overlapping, keeps empty pieces.  Recursion is fuelled by the
   input length (a separator match always consumes at least one
   character, so the initial fuel is never exhausted). -/
def pySplitF (sep : Str) : Nat → Str → Str → List Str
  | 0, s, acc => [acc.reverse ++ s]
  | _ + 1, [], acc => [acc.reverse]
  | f + 1, c :: rest, acc =>
    if strPre sep (c :: rest) then
      acc.reverse :: pySplitF sep f (rest.drop (sep.length - 1)) []
    else
      pySplitF sep f rest (c :: acc)

def pySplit (sep s : Str) : List Str := pySplitF sep s.length s []

/- ===== JSON documents ===== -/

inductive Json where
  | null : Json
  | bool : Bool → Json
  | num : Str → Json    -- numeric literal kept as its lexeme
  | str : Str → Json
  | arr : List Json → Json
  | obj : List (Str × Json) → Json

instance : Inhabited Json := ⟨Json.null⟩

def js (s : String) : Json := .str s.data

/- Python dict lookup d.get(k) on an association list. -/
def dictGet (m : List (Str × Json)) (k : Str) : Option Json :=
  match m with
  | [] => none
  | (k2, v) :: rest => if k2 = k then some v else dictGet rest k

/- Python dict assignment d[k] = v: replaces in place when the key exists
   (keeping its position), appends otherwise. -/
def dictSet (m : List (Str × Json)) (k : Str) (v : Json) : List (Str × Json) :=
  if m.any (fun kv => kv.1 = k) then
    m.map (fun kv => if kv.1 = k then (k, v) else kv)
  else
    m ++ [(k, v)]

/- Python subscript j[k]: some value for a dict with the key present,
   none for a missing key (KeyError) or a non-dict (TypeError). -/
def Json.index (j : Json) (k : Str) : Option Json :=
  match j with
  | .obj kvs => dictGet kvs k
  | _ => none

/- Python j.get(k, d): defaulted lookup on a dict, none (AttributeError)
   on a non-dict. -/
def Json.pyGet (j : Json) (k : Str) (d : Json) : Option Json :=
  match j with
  | .obj kvs => some ((dictGet kvs k).getD d)
  | _ => none

/- Whether the lexeme of a JSON number denotes zero (significand digits
   all zero); float-underflow edge cases are not modelled. -/
def numIsZero (lex : Str) : Bool :=
  let sig := lex.takeWhile (fun c => c ≠ 'e' && c ≠ 'E')
  let digs := sig.filter Char.isDigit
  !digs.isEmpty && digs.all (fun c => c = '0')

/- Python truthiness test (if not x) on JSON values. -/
def jsonFalsy : Json → Bool
  | .null => true
  | .bool b => !b
  | .num lex => numIsZero lex
  | .str s => s.isEmpty
  | .arr xs => xs.isEmpty
  | .obj kvs => kvs.isEmpty

/- Set a field of a JSON object (d[k] = v); identity on non-objects
   (only ever applied to objects in the model). -/
def jsonSet (j : Json) (k : Str) (v : Json) : Json :=
  match j with
  | .obj kvs => .obj (dictSet kvs k v)
  | _ => j

def objKeys : Json → List Str
  | .obj kvs => kvs.map Prod.fst
  | _ => []

/- ===== A model of Python json.loads (strict JSON plus the NaN/Infinity
   extensions json.loads accepts); numbers are kept as lexemes. ===== -/

def jsonWs (c : Char) : Bool :=
  c = ' ' || c = '\t' || c = '\n' || c = '\r'

def skipWs (s : Str) : Str := s.dropWhile jsonWs

def hexVal (c : Char) : Option Nat :=
  if '0' ≤ c ∧ c ≤ '9' then some (c.toNat - 48)
  else if 'a' ≤ c ∧ c ≤ 'f' then some (c.toNat - 87)
  else if 'A' ≤ c ∧ c ≤ 'F' then some (c.toNat - 55)
  else none

def escChar (e : Char) : Option Char :=
  if e = cQuote then some cQuote
  else if e = cBackslash then some cBackslash
  else if e = '/' then some '/'
  else if e = 'b' then some (Char.ofNat 8)
  else if e = 'f' then some (Char.ofNat 12)
  else if e = 'n' then some '\n'
  else if e = 'r' then some '\r'
  else if e = 't' then some '\t'
  else none

/- String body parser, after the opening quote. -/
def parseStringRest : Nat → Str → Option (Str × Str)
  | 0, _ => none
  | f + 1, s =>
    match s with
    | [] => none
    | c :: rest =>
      if c = cQuote then some ([], rest)
      else if c = cBackslash then
        match rest with
        | 'u' :: h1 :: h2 :: h3 :: h4 :: rest3 =>
          match hexVal h1, hexVal h2, hexVal h3, hexVal h4 with
          | some a, some b, some c2, some d =>
            (parseStringRest f rest3).map fun pr =>
              (Char.ofNat (((a * 16 + b) * 16 + c2) * 16 + d) :: pr.1, pr.2)
          | _, _, _, _ => none
        | e :: rest2 =>
          match escChar e with
          | some ec => (parseStringRest f rest2).map fun pr => (ec :: pr.1, pr.2)
          | none => none
        | [] => none
      else if c.toNat < 32 then none
      else (parseStringRest f rest).map fun pr => (c :: pr.1, pr.2)

def digitB (c : Char) : Bool := '0' ≤ c && c ≤ '9'

/- JSON number literal (plus the -Infinity extension); returns the lexeme. -/
def parseNumLex (s : Str) : Option (Str × Str) :=
  let signed := match s with
    | c :: r => if c = '-' then some r else none
    | [] => none
  let sign : Str := if signed.isSome then ['-'] else []
  let s1 := signed.getD s
  if strPre (S "Infinity") s1 then
    if signed.isSome then some (sign ++ S "Infinity", s1.drop 8) else none
  else
    match s1 with
    | [] => none
    | c :: r =>
      if !digitB c then none
      else
        let ipr : Str × Str :=
          if c = '0' then ([c], r)
          else
            let t := (c :: r).takeWhile digitB
            (t, (c :: r).drop t.length)
        let fpr : Str × Str :=
          match ipr.2 with
          | '.' :: rr =>
            let ds := rr.takeWhile digitB
            if ds.isEmpty then ([], ipr.2)
            else ('.' :: ds, rr.drop ds.length)
          | _ => ([], ipr.2)
        let epr : Str × Str :=
          match fpr.2 with
          | e :: rr =>
            if e = 'e' || e = 'E' then
              let sgn : Str × Str :=
                match rr with
                | c2 :: rr3 => if c2 = '+' || c2 = '-' then ([c2], rr3) else ([], rr)
                | [] => ([], [])
              let ds := sgn.2.takeWhile digitB
              if ds.isEmpty then ([], fpr.2)
              else (e :: sgn.1 ++ ds, sgn.2.drop ds.length)
            else ([], fpr.2)
          | [] => ([], fpr.2)
        some (sign ++ ipr.1 ++ fpr.1 ++ epr.1, epr.2)

def expectLit (lit s : Str) : Option Str :=
  if strPre lit s then some (s.drop lit.length) else none

/- Collapse duplicate keys the way Python dict construction does: first
   occurrence keeps its position, later occurrences overwrite the value. -/
def dedupKeys (pairs : List (Str × Json)) : List (Str × Json) :=
  pairs.foldl (fun m kv => dictSet m kv.1 kv.2) []

mutual

def parseVal : Nat → Str → Option (Json × Str)
  | 0, _ => none
  | f + 1, s0 =>
    let s := skipWs s0
    match s with
    | [] => none
    | c :: rest =>
      if c = cQuote then
        (parseStringRest (f + 1) rest).map fun pr => (.str pr.1, pr.2)
      else if c = '[' then
        match skipWs rest with
        | c2 :: r2 =>
          if c2 = ']' then some (.arr [], r2)
          else (parseElems f (skipWs rest)).map fun pr => (.arr pr.1, pr.2)
        | [] => none
      else if c = cLBrace then
        match skipWs rest with
        | c2 :: r2 =>
          if c2 = cRBrace then some (.obj [], r2)
          else (parseMembers f (skipWs rest)).map fun pr => (.obj (dedupKeys pr.1), pr.2)
        | [] => none
      else if c = 't' then (expectLit (S "rue") rest).map fun r => (.bool true, r)
      else if c = 'f' then (expectLit (S "alse") rest).map fun r => (.bool false, r)
      else if c = 'n' then (expectLit (S "ull") rest).map fun r => (.null, r)
      else if c = 'N' then (expectLit (S "aN") rest).map fun r => (.num (S "NaN"), r)
      else if c = 'I' then (expectLit (S "nfinity") rest).map fun r => (.num (S "Infinity"), r)
      else (parseNumLex (c :: rest)).map fun pr => (.num pr.1, pr.2)

def parseElems : Nat → Str → Option (List Json × Str)
  | 0, _ => none
  | f + 1, s => do
    let (j, r) ← parseVal f s
    match skipWs r with
    | c :: r3 =>
      if c = ',' then (parseElems f r3).map fun pr => (j :: pr.1, pr.2)
      else if c = ']' then some ([j], r3)
      else none
    | [] => none

def parseMembers : Nat → Str → Option (List (Str × Json) × Str)
  | 0, _ => none
  | f + 1, s =>
    match skipWs s with
    | c :: r =>
      if c = cQuote then do
        let (k, r2) ← parseStringRest (f + 1) r
        match skipWs r2 with
        | c2 :: r3 =>
          if c2 = ':' then do
            let (v, r4) ← parseVal f r3
            match skipWs r4 with
            | c3 :: r5 =>
              if c3 = ',' then (parseMembers f r5).map fun pr => ((k, v) :: pr.1, pr.2)
              else if c3 = cRBrace then some ([(k, v)], r5)
              else none
            | [] => none
          else none
        | [] => none
      else none
    | [] => none

end

/- json.loads: parse one value, then require only whitespace to follow. -/
def jsonParse (s : Str) : Option Json :=
  match parseVal (4 * s.length + 16) s with
  | some (j, r) => if (skipWs r).isEmpty then some j else none
  | none => none

/- ===== The oracle-response handling shared by the agent operations:
   strip Markdown code fences, then json.loads.  Faithful to the
   identical blocks at goalgrid_agent.py lines 130-135, 219-224,
   279-284 and app.py lines 99-105.  none = the strip/parse step raised
   (IndexError or json.JSONDecodeError), which every caller's
   try/except turns into its local failure branch. ===== -/

def stripFences (raw : Str) : Option Str :=
  let content := pyStrip raw
  if strPre (S "```json") content then
    match (pySplit (S "```json") content).get? 1 with
    | none => none
    | some piece => some (pyStrip ((pySplit (S "```") piece).headD []))
  else if strPre (S "```") content then
    match (pySplit (S "```") content).get? 1 with
    | none => none
    | some piece => some (pyStrip ((pySplit (S "```") piece).headD []))
  else some content

def processContent (s : Str) : Option Json :=
  (stripFences s).bind jsonParse

/- The oracle call produced no parseable payload: the completion call
   raised, or the returned text fails the strip-and-parse step. -/
def oracleFailed (o : Option Str) : Prop :=
  o = none ∨ ∃ s, o = some s ∧ processContent s = none

/- ===== Data models (goalgrid_agent.py lines 23-58) ===== -/

/- class Task (named PyTask here since Lean reserves Task): __init__(title, description) sets done = False,
   task = a singleton dict holding the description, and keeps the title
   only on the in-memory object. -/
structure PyTask where
  done : Bool
  task : Json
  title : Json

def PyTask.init (title description : Json) : PyTask :=
  ⟨false, .obj [(S "task", description)], title⟩

/- PyTask.to_dict: only done and task are persisted; the title is dropped. -/
def PyTask.to_dict (t : PyTask) : Json :=
  .obj [(S "done", .bool t.done), (S "task", t.task)]

/- class Lesson; tasks holds already-serialised task dicts. -/
structure Lesson where
  date : Str
  title : Json
  lesson : Json
  summary : Json
  motivation : Json
  quote : Json
  secret_hacks_and_shortcuts : Json
  tiny_daily_rituals_that_transform : Json
  visual_infographic_html : Json
  tasks : List Json

def Lesson.to_dict (L : Lesson) : Json :=
  .obj [(S "title", L.title), (S "lesson", L.lesson), (S "summary", L.summary),
        (S "motivation", L.motivation), (S "quote", L.quote),
        (S "secret_hacks_and_shortcuts", L.secret_hacks_and_shortcuts),
        (S "tiny_daily_rituals_that_transform", L.tiny_daily_rituals_that_transform),
        (S "visual_infographic_html", L.visual_infographic_html),
        (S "tasks", .arr L.tasks)]

/- Python str()/repr() of a JSON value, used only to interpolate values
   into prompt text (string escaping inside repr is approximated). -/
mutual

def pyRepr : Json → Str
  | .null => S "None"
  | .bool b => if b then S "True" else S "False"
  | .num lex => lex
  | .str s => cApos :: s ++ [cApos]
  | .arr xs => '[' :: pyReprList xs ++ [']']
  | .obj kvs => cLBrace :: pyReprObj kvs ++ [cRBrace]

def pyReprList : List Json → Str
  | [] => []
  | [x] => pyRepr x
  | x :: y :: xs => pyRepr x ++ S ", " ++ pyReprList (y :: xs)

def pyReprObj : List (Str × Json) → Str
  | [] => []
  | [(k, v)] => cApos :: k ++ cApos :: S ": " ++ pyRepr v
  | (k, v) :: p :: rest =>
    cApos :: k ++ cApos :: S ": " ++ pyRepr v ++ S ", " ++ pyReprObj (p :: rest)

end

def pyStr : Json → Str
  | .str s => s
  | j => pyRepr j

/- ===== The store state =====
   The lessons_by_date map of the (single) active course document under
   users/{user}/dated_courses; get_active_course/update_course_content
   read and replace exactly this map (goalgrid_agent.py lines 88-105),
   and app.py reads the same map merged over the user's documents. -/

abbrev State := List (Str × Json)

def keysNodup (st : State) : Prop := (st.map Prod.fst).Nodup

/- ===== GoalGridAgent (goalgrid_agent.py) ===== -/

/- The fixed fallback content of generate_personalized_content
   (lines 137-146). -/
def fallback_content : Json :=
  .obj [(S "title", js "Sample Lesson"),
        (S "lesson", js "This is a sample lesson content."),
        (S "summary", js "Sample summary."),
        (S "motivation", js "Keep going!"),
        (S "quote", js "Consistency is key."),
        (S "secret_hacks_and_shortcuts", js "Start small."),
        (S "tiny_daily_rituals_that_transform", js "Take 5 minutes daily."),
        (S "visual_infographic_html", js "<div>Sample Infographic</div>")]

/- generate_personalized_content (lines 114-146): the whole body sits in
   a bare try/except, so an oracle failure or unparseable reply yields
   the fallback dict and the call never raises. -/
def generate_personalized_content (oracle : Option Str) : Json :=
  match oracle with
  | none => fallback_content
  | some content =>
    match processContent content with
    | none => fallback_content
    | some j => j

/- create_daily_lesson (lines 149-168): builds a Lesson from the content
   dict (KeyError/TypeError on a parsed reply lacking the fields
   propagates: Option result), stores it at today's date, returns it. -/
def create_daily_lesson (st : State) (today : Str) (oracle : Option Str) :
    Option (Lesson × State) :=
  let content := generate_personalized_content oracle
  match content.index (S "title"), content.index (S "lesson"),
        content.index (S "summary"), content.index (S "motivation"),
        content.index (S "quote"), content.index (S "secret_hacks_and_shortcuts"),
        content.index (S "tiny_daily_rituals_that_transform"),
        content.index (S "visual_infographic_html") with
  | some t, some l, some su, some m, some q, some sh, some tr, some v =>
    let lesson : Lesson := ⟨today, t, l, su, m, q, sh, tr, v, []⟩
    some (lesson, dictSet st today lesson.to_dict)
  | _, _, _, _, _, _, _, _ => none

/- generate_tasks_for_lesson (lines 170-183): appends num_tasks
   placeholder tasks to the lesson, stores the lesson at its date, and
   returns the Task objects. -/
def generate_tasks_for_lesson (lesson : Lesson) (num_tasks : Nat) (st : State) :
    List PyTask × Lesson × State :=
  let ts := (List.range num_tasks).map fun k =>
    PyTask.init (.str (S ("Step " ++ toString (k + 1))))
      (.str (S ("Complete step " ++ toString (k + 1) ++ " for ") ++
             cApos :: pyStr lesson.title ++ [cApos]))
  let lesson' : Lesson := { lesson with tasks := lesson.tasks ++ ts.map PyTask.to_dict }
  (ts, lesson', dictSet st lesson'.date lesson'.to_dict)

/- Whether the tasks_text prompt interpolation at line 200 succeeds:
   tasks must be a list whose members all have t["task"]["task"]
   (any KeyError/TypeError is caught by the surrounding try and turns
   into the False branch). -/
def canBuildTasksText : Json → Bool
  | .arr xs => xs.all fun t =>
      match (t.index (S "task")).bind (fun inner => inner.index (S "task")) with
      | some _ => true
      | none => false
  | _ => false

/- The per-element body of the updated_tasks loop at lines 227-229:
   a non-dict element raises AttributeError (caught: failure), a dict
   yields Task(title, description).to_dict() with the Step/Complete-step
   defaults; i counts from 1. -/
def buildTasks : Nat → List Json → Option (List Json)
  | _, [] => some []
  | i, t :: ts =>
    match t with
    | .obj kvs =>
      let title := (dictGet kvs (S "title")).getD (.str (S ("Step " ++ toString i)))
      let descr := (dictGet kvs (S "description")).getD
        (.str (S ("Complete step " ++ toString i)))
      (buildTasks (i + 1) ts).map fun rest => (PyTask.init title descr).to_dict :: rest
    | _ => none

def extractTasks : Json → Option (List Json)
  | .arr xs => buildTasks 1 xs
  | _ => none

/- regenerate_tasks_with_ai (goalgrid_agent.py lines 186-238).
   Outer Option: none = the uncaught AttributeError of
   lesson_data.get(...) on a truthy non-dict lesson document; every
   failure inside the try block returns (false, unchanged store); only
   the final branch writes. -/
def regenerate_tasks_with_ai (st : State) (date : Str) (oracle : Option Str) :
    Option (Bool × State) :=
  match dictGet st date with
  | none => some (false, st)
  | some lesson_data =>
    if jsonFalsy lesson_data then some (false, st)
    else
      match lesson_data.pyGet (S "tasks") (.arr []) with
      | none => none
      | some tasks =>
        if jsonFalsy tasks then some (false, st)
        else if !canBuildTasksText tasks then some (false, st)
        else
          match oracle with
          | none => some (false, st)
          | some content =>
            match processContent content with
            | none => some (false, st)
            | some parsed =>
              match extractTasks parsed with
              | none => some (false, st)
              | some updated =>
                let lesson' := jsonSet lesson_data (S "tasks") (.arr updated)
                some (true, dictSet st date lesson')

/- Whether the content_text interpolation of summarize_todays_lesson
   (lines 261-262) succeeds: title and lesson fields must exist and the
   defaulted tasks list must interpolate. -/
def canBuildSummaryText (ld : Json) : Bool :=
  (ld.index (S "title")).isSome && (ld.index (S "lesson")).isSome &&
    canBuildTasksText ((ld.pyGet (S "tasks") (.arr [])).getD (.arr []))

/- summarize_todays_lesson (lines 252-287): returns the parsed oracle
   reply or None; it performs no store write on any path. -/
def summarize_todays_lesson (st : State) (today : Str) (oracle : Option Str) :
    Option Json × State :=
  match dictGet st today with
  | none => (none, st)
  | some ld =>
    if jsonFalsy ld then (none, st)
    else if !canBuildSummaryText ld then (none, st)
    else
      match oracle with
      | none => (none, st)
      | some content => (processContent content, st)

/- ===== The app.py GoalGridAgent variant ===== -/

/- Whether the tasks_text interpolation at app.py line 80 succeeds:
   str.join requires every item to be a string, so dict members need
   ["task"]["task"] present and a string, string members pass as-is, and
   a string or dict container iterates its characters/keys (all strings);
   anything else raises inside the try and the call returns False. -/
def appCanBuildTasksText : Json → Bool
  | .arr xs => xs.all fun t =>
      match t with
      | .obj _ =>
        match (t.index (S "task")).bind (fun inner => inner.index (S "task")) with
        | some (.str _) => true
        | _ => false
      | .str _ => true
      | _ => false
  | .str _ => true
  | .obj _ => true
  | _ => false

/- The updated_tasks comprehension at app.py line 106: the stored text is
   t.get("title", t.get("description", "")) and the dict literal puts the
   task field before done. -/
def appBuildTasks : List Json → Option (List Json)
  | [] => some []
  | t :: ts =>
    match t with
    | .obj kvs =>
      (appBuildTasks ts).map fun rest =>
        .obj [(S "task", .obj [(S "task",
          (dictGet kvs (S "title")).getD ((dictGet kvs (S "description")).getD (.str [])))]),
          (S "done", .bool false)] :: rest
    | _ => none

def appExtractTasks : Json → Option (List Json)
  | .arr xs => appBuildTasks xs
  | _ => none

/- regenerate_tasks_with_ai (app.py lines 70-120), on the merged
   lessons_by_date view of a single datedcourses document; the field-path
   update rewrites exactly the lesson at the given date. -/
def app_regenerate_tasks_with_ai (st : State) (date : Str) (oracle : Option Str) :
    Option (Bool × State) :=
  match dictGet st date with
  | none => some (false, st)
  | some lesson_data =>
    if jsonFalsy lesson_data then some (false, st)
    else
      match lesson_data.pyGet (S "tasks") .null with
      | none => none
      | some tasks =>
        if jsonFalsy tasks then some (false, st)
        else if !appCanBuildTasksText tasks then some (false, st)
        else
          match oracle with
          | none => some (false, st)
          | some content =>
            match processContent content with
            | none => some (false, st)
            | some parsed =>
              match appExtractTasks parsed with
              | none => some (false, st)
              | some updated =>
                some (true, dictSet st date (jsonSet lesson_data (S "tasks") (.arr updated)))

/- summarize_todays_lesson (app.py lines 61-68): the body contains no
   oracle call and no store write; it returns the stored summary field
   (None when the lesson or the field is absent), crashing on a truthy
   non-dict lesson document.  The store is threaded through unchanged so
   that the absence of writes is a provable statement. -/
def app_summarize_todays_lesson (st : State) (date : Str) : Option (Json × State) :=
  match dictGet st date with
  | none => some (.null, st)
  | some ld =>
    if jsonFalsy ld then some (.null, st)
    else
      match ld with
      | .obj kvs => some ((dictGet kvs (S "summary")).getD .null, st)
      | _ => none

/- ===== Operation sequences over the store (for the one-lesson-per-date
   invariant): each step is one agent call; a call that raises leaves
   the store as it was. ===== -/

inductive AgentOp where
  | createLesson (today : Str) (oracle : Option Str)
  | genTasks (lesson : Lesson) (n : Nat)
  | regenTasks (date : Str) (oracle : Option Str)

def stepOp (st : State) : AgentOp → State
  | .createLesson today o => ((create_daily_lesson st today o).map Prod.snd).getD st
  | .genTasks L n => (generate_tasks_for_lesson L n st).2.2
  | .regenTasks d o => ((regenerate_tasks_with_ai st d o).map Prod.snd).getD st

def runOps (st : State) : List AgentOp → State
  | [] => st
  | op :: ops => runOps (stepOp st op) ops

/- ===== Vocabulary for the specification statements ===== -/

/- Substring search over a whole JSON document (string leaves, object
   keys and numeric lexemes). -/
mutual

def jsonMentions (needle : Str) : Json → Bool
  | .null => false
  | .bool _ => false
  | .num lex => strOccurs needle lex
  | .str s => strOccurs needle s
  | .arr xs => jsonMentionsList needle xs
  | .obj kvs => jsonMentionsObj needle kvs

def jsonMentionsList (needle : Str) : List Json → Bool
  | [] => false
  | x :: xs => jsonMentions needle x || jsonMentionsList needle xs

def jsonMentionsObj (needle : Str) : List (Str × Json) → Bool
  | [] => false
  | (k, v) :: rest => strOccurs needle k || jsonMentions needle v || jsonMentionsObj needle rest

end

def stateMentions (needle : Str) (st : State) : Bool :=
  st.any fun kv => strOccurs needle kv.1 || jsonMentions needle kv.2

/- The persisted shape of a goalgrid_agent task: only done and the
   description survive serialisation. -/
def storedTaskOfDescr (d : Json) : Json :=
  .obj [(S "done", .bool false), (S "task", .obj [(S "task", d)])]

/- What regenerate_tasks_with_ai (goalgrid_agent.py) stores for a parsed
   oracle list of objects: one task per object, carrying the returned
   description (or the Complete-step default), numbered from 1. -/
def goalgridStoredTasks (okvss : List (List (Str × Json))) : List Json :=
  (List.enumFrom 1 okvss).map fun p =>
    storedTaskOfDescr ((dictGet p.2 (S "description")).getD
      (.str (S ("Complete step " ++ toString p.1))))

/- What regenerate_tasks_with_ai (app.py) stores for one parsed oracle
   object: the task text is the returned title, falling back to the
   description, then to the empty string. -/
def appStoredTask (okvs : List (Str × Json)) : Json :=
  .obj [(S "task", .obj [(S "task",
    (dictGet okvs (S "title")).getD ((dictGet okvs (S "description")).getD (.str [])))]),
    (S "done", .bool false)]

def appStoredTasks (okvss : List (List (Str × Json))) : List Json :=
  okvss.map appStoredTask

/- The Lesson produced from the fallback content dict. -/
def sampleLesson (today : Str) : Lesson :=
  ⟨today, js "Sample Lesson", js "This is a sample lesson content.",
   js "Sample summary.", js "Keep going!", js "Consistency is key.",
   js "Start small.", js "Take 5 minutes daily.", js "<div>Sample Infographic</div>", []⟩

def strFieldNonEmpty : Json → Bool
  | .str s => !s.isEmpty
  | _ => false

def fullyPopulated (L : Lesson) : Bool :=
  strFieldNonEmpty L.title && strFieldNonEmpty L.lesson && strFieldNonEmpty L.summary &&
  strFieldNonEmpty L.motivation && strFieldNonEmpty L.quote &&
  strFieldNonEmpty L.secret_hacks_and_shortcuts &&
  strFieldNonEmpty L.tiny_daily_rituals_that_transform &&
  strFieldNonEmpty L.visual_infographic_html

/- A stored value at a key (if any) that the Python code can call .get on
   without an uncaught AttributeError: a dict, or falsy (returned early). -/
def lessonShapeOk : Option Json → Prop
  | none => True
  | some j => jsonFalsy j = true ∨ ∃ kvs, j = .obj kvs

/- The oracle reply wrapped in Markdown code fences, as in the claim. -/
def fenceWrapJson (p : Str) : Str := S "```json\n" ++ p ++ S "\n```"

def fenceWrapPlain (p : Str) : Str := S "```\n" ++ p ++ S "\n```"

/- ===== Concrete fixtures ===== -/

def demoTask (d : String) : Json :=
  .obj [(S "done", .bool false), (S "task", .obj [(S "task", js d)])]

def demoTasks : List Json := [demoTask "t1", demoTask "t2", demoTask "t3"]

def demoKvs : List (Str × Json) :=
  [(S "title", js "Focus"), (S "lesson", js "Body"), (S "summary", js "Su"),
   (S "tasks", .arr demoTasks)]

def demoLesson : Json := .obj demoKvs

def demoState : State := [(S "2024-06-01", demoLesson)]

def oracleEasyA : Str :=
  S "[\x7b\x22title\x22: \x22Easy A\x22, \x22description\x22: \x22do X\x22\x7d]"

def demoLesson5 : Lesson :=
  ⟨S "2024-06-01", js "T", js "B", js "S", js "M", js "Q", js "H", js "R", js "V", []⟩

/- The store after the Easy-A regeneration of demoState. -/
def easyAState : State :=
  [(S "2024-06-01",
    .obj [(S "title", js "Focus"), (S "lesson", js "Body"), (S "summary", js "Su"),
          (S "tasks", .arr [storedTaskOfDescr (js "do X")])])]

/- The store after clearing the demo tasks with an empty oracle list. -/
def clearedState : State :=
  [(S "2024-06-01",
    .obj [(S "title", js "Focus"), (S "lesson", js "Body"), (S "summary", js "Su"),
          (S "tasks", .arr [])])]

/- ===== Association-list (Python dict) lemmas ===== -/

theorem dictGet_none_of_any_false (m : List (Str × Json)) (k : Str)
    (h : m.any (fun kv => kv.1 = k) = false) : dictGet m k = none := by
  induction m with
  | nil => rfl
  | cons kv rest ih =>
    obtain ⟨k2, v⟩ := kv
    simp only [List.any_cons, Bool.or_eq_false_iff, decide_eq_false_iff_not] at h
    simp only [dictGet, h.1, if_false]
    exact ih h.2

theorem dictGet_append_of_none (m m2 : List (Str × Json)) (k : Str)
    (h : dictGet m k = none) : dictGet (m ++ m2) k = dictGet m2 k := by
  induction m with
  | nil => rfl
  | cons kv rest ih =>
    obtain ⟨k2, v⟩ := kv
    by_cases hk : k2 = k
    · simp [dictGet, hk] at h
    · simp only [dictGet, hk, if_false] at h
      simp only [List.cons_append, dictGet, hk, if_false]
      exact ih h

theorem dictGet_map_set_self (m : List (Str × Json)) (k : Str) (v : Json) :
    dictGet (m.map (fun kv => if kv.1 = k then (k, v) else kv)) k =
      if m.any (fun kv => kv.1 = k) then some v else none := by
  induction m with
  | nil => rfl
  | cons kv rest ih =>
    obtain ⟨k2, v2⟩ := kv
    by_cases hk : k2 = k
    · simp only [List.map_cons]
      rw [if_pos hk]
      simp [dictGet, hk]
    · simp only [List.map_cons]
      rw [if_neg hk]
      have hd : decide (k2 = k) = false := by simp [hk]
      simp only [dictGet]
      rw [if_neg hk, ih]
      simp only [List.any_cons, hd, Bool.false_or]

theorem dictGet_map_set_ne (m : List (Str × Json)) (k k2 : Str) (v : Json)
    (h : k2 ≠ k) :
    dictGet (m.map (fun kv => if kv.1 = k then (k, v) else kv)) k2 = dictGet m k2 := by
  induction m with
  | nil => rfl
  | cons kv rest ih =>
    obtain ⟨k3, v3⟩ := kv
    have hke : ¬(k = k2) := fun hc => h hc.symm
    by_cases hk : k3 = k
    · have h2 : ¬(k3 = k2) := fun hc => h (hc.symm.trans hk)
      simp only [List.map_cons]
      rw [if_pos hk]
      simp [dictGet, hke, h2, ih]
    · simp only [List.map_cons]
      rw [if_neg hk]
      by_cases hk2 : k3 = k2
      · simp [dictGet, hk2]
      · simp [dictGet, hk2, ih]

theorem dictGet_append_single_ne (m : List (Str × Json)) (k k2 : Str) (v : Json)
    (h : k2 ≠ k) : dictGet (m ++ [(k, v)]) k2 = dictGet m k2 := by
  have hke : ¬(k = k2) := fun hc => h hc.symm
  induction m with
  | nil => simp [dictGet, hke]
  | cons kv rest ih =>
    obtain ⟨k3, v3⟩ := kv
    by_cases hk3 : k3 = k2
    · simp [dictGet, hk3]
    · simp [dictGet, hk3, ih]

theorem dictGet_dictSet_self (m : List (Str × Json)) (k : Str) (v : Json) :
    dictGet (dictSet m k v) k = some v := by
  unfold dictSet
  by_cases ha : m.any (fun kv => kv.1 = k) = true
  · rw [if_pos ha, dictGet_map_set_self, if_pos ha]
  · rw [if_neg ha]
    have ha' : m.any (fun kv => kv.1 = k) = false := Bool.eq_false_iff.mpr ha
    rw [dictGet_append_of_none _ _ _ (dictGet_none_of_any_false m k ha')]
    simp [dictGet]

theorem dictGet_dictSet_ne (m : List (Str × Json)) (k k2 : Str) (v : Json)
    (h : k2 ≠ k) : dictGet (dictSet m k v) k2 = dictGet m k2 := by
  unfold dictSet
  by_cases ha : m.any (fun kv => kv.1 = k) = true
  · rw [if_pos ha]
    exact dictGet_map_set_ne m k k2 v h
  · rw [if_neg ha]
    exact dictGet_append_single_ne m k k2 v h

theorem map_fst_map_set (m : List (Str × Json)) (k : Str) (v : Json) :
    (m.map (fun kv => if kv.1 = k then (k, v) else kv)).map Prod.fst =
      m.map Prod.fst := by
  induction m with
  | nil => rfl
  | cons kv rest ih =>
    obtain ⟨k2, v2⟩ := kv
    by_cases hk : k2 = k
    · subst hk
      simp [ih]
    · simp [hk, ih]

theorem not_mem_keys_of_any_false (m : List (Str × Json)) (k : Str)
    (h : m.any (fun kv => kv.1 = k) = false) : k ∉ m.map Prod.fst := by
  intro hmem
  obtain ⟨kv, hin, hfst⟩ := List.mem_map.mp hmem
  have ht : m.any (fun kv => kv.1 = k) = true :=
    List.any_eq_true.mpr ⟨kv, hin, by simp [hfst]⟩
  rw [ht] at h
  simp at h

theorem keysNodup_dictSet (m : List (Str × Json)) (k : Str) (v : Json)
    (h : keysNodup m) : keysNodup (dictSet m k v) := by
  unfold keysNodup dictSet
  by_cases ha : m.any (fun kv => kv.1 = k) = true
  · rw [if_pos ha, map_fst_map_set]
    exact h
  · rw [if_neg ha]
    have ha' : m.any (fun kv => kv.1 = k) = false := Bool.eq_false_iff.mpr ha
    simp only [List.map_append, List.map_cons, List.map_nil]
    rw [List.nodup_append]
    refine ⟨h, by simp, ?_⟩
    intro a ha2 hb
    simp only [List.mem_singleton] at hb
    subst hb
    exact not_mem_keys_of_any_false m _ ha' ha2

theorem dictGet_some_falsy (kvs : List (Str × Json)) (k : Str) (v : Json)
    (h : dictGet kvs k = some v) : jsonFalsy (.obj kvs) = false := by
  cases kvs with
  | nil => exact absurd h (by simp [dictGet])
  | cons kv rest => simp [jsonFalsy]

/- ===== Failure-path lemmas for the regeneration operations ===== -/

theorem regen_fail_goalgrid (st : State) (date : Str) (o : Option Str)
    (hwf : lessonShapeOk (dictGet st date)) (hfail : oracleFailed o) :
    regenerate_tasks_with_ai st date o = some (false, st) := by
  unfold regenerate_tasks_with_ai
  cases hd : dictGet st date with
  | none => rfl
  | some ld =>
    rw [hd] at hwf
    simp only [lessonShapeOk] at hwf
    by_cases hf : jsonFalsy ld = true
    · simp [hf]
    · rcases hwf with hfalsy | ⟨kvs, rfl⟩
      · exact absurd hfalsy hf
      · have hf' : jsonFalsy (Json.obj kvs) = false := Bool.eq_false_iff.mpr hf
        simp only [hf', Bool.false_eq_true, if_false, Json.pyGet]
        by_cases hft : jsonFalsy ((dictGet kvs (S "tasks")).getD (.arr [])) = true
        · simp [hft]
        · have hft' := Bool.eq_false_iff.mpr hft
          by_cases hcb : canBuildTasksText ((dictGet kvs (S "tasks")).getD (.arr [])) = true
          · rcases hfail with rfl | ⟨s, rfl, hps⟩
            · simp [hft', hcb]
            · simp [hft', hcb, hps]
          · have hcb' := Bool.eq_false_iff.mpr hcb
            simp [hft', hcb']

theorem regen_fail_app (st : State) (date : Str) (o : Option Str)
    (hwf : lessonShapeOk (dictGet st date)) (hfail : oracleFailed o) :
    app_regenerate_tasks_with_ai st date o = some (false, st) := by
  unfold app_regenerate_tasks_with_ai
  cases hd : dictGet st date with
  | none => rfl
  | some ld =>
    rw [hd] at hwf
    simp only [lessonShapeOk] at hwf
    by_cases hf : jsonFalsy ld = true
    · simp [hf]
    · rcases hwf with hfalsy | ⟨kvs, rfl⟩
      · exact absurd hfalsy hf
      · have hf' : jsonFalsy (Json.obj kvs) = false := Bool.eq_false_iff.mpr hf
        simp only [hf', Bool.false_eq_true, if_false, Json.pyGet]
        by_cases hft : jsonFalsy ((dictGet kvs (S "tasks")).getD .null) = true
        · simp [hft]
        · have hft' := Bool.eq_false_iff.mpr hft
          by_cases hcb : appCanBuildTasksText ((dictGet kvs (S "tasks")).getD .null) = true
          · rcases hfail with rfl | ⟨s, rfl, hps⟩
            · simp [hft', hcb]
            · simp [hft', hcb, hps]
          · have hcb' := Bool.eq_false_iff.mpr hcb
            simp [hft', hcb']

/-- C1: if the oracle call inside regenerate_tasks_with_ai fails (the
completion call raises, or the returned text is malformed/non-JSON after
fence stripping), the operation returns false and the stored
lessons_by_date document — in particular the task sequence at that date —
is unchanged, in both the goalgrid_agent.py and app.py variants. -/
theorem c1_regenerate_oracle_failure_atomic (st : State) (date : Str)
    (o : Option Str) (hwf : lessonShapeOk (dictGet st date))
    (hfail : oracleFailed o) :
    regenerate_tasks_with_ai st date o = some (false, st) ∧
    app_regenerate_tasks_with_ai st date o = some (false, st) :=
  ⟨regen_fail_goalgrid st date o hwf hfail, regen_fail_app st date o hwf hfail⟩

/-- C1 witness: a malformed oracle reply against the demo store. -/
theorem c1_regenerate_oracle_failure_atomic_witness :
    regenerate_tasks_with_ai demoState (S "2024-06-01") (some (S "oops")) =
      some (false, demoState) ∧
    app_regenerate_tasks_with_ai demoState (S "2024-06-01") (some (S "oops")) =
      some (false, demoState) :=
  c1_regenerate_oracle_failure_atomic demoState (S "2024-06-01") (some (S "oops"))
    (Or.inr ⟨_, rfl⟩) (Or.inr ⟨_, rfl, by rfl⟩)

/- The fallback branch of generate_personalized_content. -/
theorem gen_content_of_fail (o : Option Str) (hfail : oracleFailed o) :
    generate_personalized_content o = fallback_content := by
  rcases hfail with rfl | ⟨s, rfl, hps⟩
  · rfl
  · simp [generate_personalized_content, hps]

/-- C3: when the oracle reply is non-JSON, fenced garbage, or the
completion call raises, create_daily_lesson still returns (and stores at
today's key) the fully-populated fallback Lesson, whose eight content
fields are all non-empty strings and whose task list is empty. -/
theorem c3_create_daily_lesson_fallback (st : State) (today : Str)
    (o : Option Str) (hfail : oracleFailed o) :
    create_daily_lesson st today o =
      some (sampleLesson today, dictSet st today (sampleLesson today).to_dict) ∧
    fullyPopulated (sampleLesson today) = true ∧
    (sampleLesson today).tasks = [] ∧
    dictGet (dictSet st today (sampleLesson today).to_dict) today =
      some (sampleLesson today).to_dict := by
  have hg := gen_content_of_fail o hfail
  refine ⟨?_, rfl, rfl, dictGet_dictSet_self _ _ _⟩
  simp only [create_daily_lesson, hg]
  rfl

/-- C3 witness: fenced garbage from the oracle. -/
theorem c3_create_daily_lesson_fallback_witness :
    create_daily_lesson [] (S "2024-06-05") (some (S "```json\nnot json\n```")) =
      some (sampleLesson (S "2024-06-05"),
        dictSet [] (S "2024-06-05") (sampleLesson (S "2024-06-05")).to_dict) ∧
    fullyPopulated (sampleLesson (S "2024-06-05")) = true :=
  have h := c3_create_daily_lesson_fallback [] (S "2024-06-05")
    (some (S "```json\nnot json\n```")) (Or.inr ⟨_, rfl, by rfl⟩)
  ⟨h.1, h.2.1⟩

/-- C7 (amended): the goalgrid_agent.py summarize_todays_lesson asks the
oracle for a summary of the stored lesson and its tasks, never mutates
the store on any path, and on oracle failure returns None — not a fixed
fallback sentence; the app.py variant never calls the oracle at all — it
returns the stored summary field (None when absent) and likewise never
mutates the store. -/
theorem c7_summarize_no_mutation_none_on_failure (st : State) (today : Str)
    (o : Option Str) :
    (summarize_todays_lesson st today o).2 = st ∧
    (oracleFailed o → (summarize_todays_lesson st today o).1 = none) ∧
    (∀ r st2, app_summarize_todays_lesson st today = some (r, st2) → st2 = st) ∧
    (∀ kvs, dictGet st today = some (.obj kvs) → jsonFalsy (.obj kvs) = false →
      app_summarize_todays_lesson st today =
        some ((dictGet kvs (S "summary")).getD .null, st)) := by
  refine ⟨?_, ?_, ?_, ?_⟩
  · unfold summarize_todays_lesson
    split
    · rfl
    · split
      · rfl
      · split
        · rfl
        · split
          · rfl
          · rfl
  · intro hfail
    unfold summarize_todays_lesson
    cases hd : dictGet st today with
    | none => rfl
    | some ld =>
      by_cases hf : jsonFalsy ld = true
      · simp [hf]
      · have hf' := Bool.eq_false_iff.mpr hf
        by_cases hcb : canBuildSummaryText ld = true
        · rcases hfail with rfl | ⟨s, rfl, hps⟩
          · simp [hf', hcb]
          · simp [hf', hcb, hps]
        · have hcb' := Bool.eq_false_iff.mpr hcb
          simp [hf', hcb']
  · intro r st2 happ
    unfold app_summarize_todays_lesson at happ
    split at happ
    · injection happ with h1
      injection h1 with hr hst
      exact hst.symm
    · split at happ
      · injection happ with h1
        injection h1 with hr hst
        exact hst.symm
      · split at happ
        · injection happ with h1
          injection h1 with hr hst
          exact hst.symm
        · exact absurd happ (by simp)
  · intro kvs hd hfalse
    unfold app_summarize_todays_lesson
    rw [hd]
    simp [hfalse]

/-- C7 counterexample: with a well-formed stored lesson and a failing
oracle call, summarize_todays_lesson returns None — no fixed encouraging
sentence is substituted (the claim's fallback clause is false). -/
theorem c7_summarize_counterexample :
    summarize_todays_lesson demoState (S "2024-06-01") none = (none, demoState) := rfl

/-- C7 witness. -/
theorem c7_summarize_witness :
    (summarize_todays_lesson demoState (S "2024-06-01") (some (S "[\x22a\x22]"))).2 =
      demoState ∧
    (summarize_todays_lesson demoState (S "2024-06-01") none).1 = none ∧
    app_summarize_todays_lesson demoState (S "2024-06-01") =
      some ((dictGet demoKvs (S "summary")).getD .null, demoState) :=
  ⟨(c7_summarize_no_mutation_none_on_failure demoState (S "2024-06-01")
      (some (S "[\x22a\x22]"))).1,
   (c7_summarize_no_mutation_none_on_failure demoState (S "2024-06-01") none).2.1
      (Or.inl rfl),
   (c7_summarize_no_mutation_none_on_failure demoState (S "2024-06-01") none).2.2.2
      demoKvs rfl rfl⟩

/- ===== Success-path lemmas for the regeneration operations ===== -/

theorem regen_success_goalgrid (st : State) (date : Str)
    (kvs : List (Str × Json)) (ts0 : List Json) (s : Str) (parsed : Json)
    (updated : List Json)
    (hd : dictGet st date = some (.obj kvs))
    (ht : dictGet kvs (S "tasks") = some (.arr ts0))
    (hne : ts0 ≠ [])
    (hb : canBuildTasksText (.arr ts0) = true)
    (hp : processContent s = some parsed)
    (he : extractTasks parsed = some updated) :
    regenerate_tasks_with_ai st date (some s) =
      some (true, dictSet st date (.obj (dictSet kvs (S "tasks") (.arr updated)))) := by
  unfold regenerate_tasks_with_ai
  rw [hd]
  have hfo : jsonFalsy (.obj kvs) = false := dictGet_some_falsy kvs _ _ ht
  have hfa : jsonFalsy (.arr ts0) = false := by simp [jsonFalsy, hne]
  simp [hfo, Json.pyGet, ht, hfa, hb, hp, he, jsonSet]

theorem regen_success_app (st : State) (date : Str)
    (kvs : List (Str × Json)) (ts0 : List Json) (s : Str) (parsed : Json)
    (updated : List Json)
    (hd : dictGet st date = some (.obj kvs))
    (ht : dictGet kvs (S "tasks") = some (.arr ts0))
    (hne : ts0 ≠ [])
    (hb : appCanBuildTasksText (.arr ts0) = true)
    (hp : processContent s = some parsed)
    (he : appExtractTasks parsed = some updated) :
    app_regenerate_tasks_with_ai st date (some s) =
      some (true, dictSet st date (.obj (dictSet kvs (S "tasks") (.arr updated)))) := by
  unfold app_regenerate_tasks_with_ai
  rw [hd]
  have hfo : jsonFalsy (.obj kvs) = false := dictGet_some_falsy kvs _ _ ht
  have hfa : jsonFalsy (.arr ts0) = false := by simp [jsonFalsy, hne]
  simp [hfo, Json.pyGet, ht, hfa, hb, hp, he, jsonSet]

/-- C10: when the oracle reply inside regenerate_tasks_with_ai parses to a
valid but empty JSON list, the operation (in both variants, given stored
task texts each variant's prompt construction accepts) replaces the
stored non-empty task sequence with the empty sequence and returns true —
a successful regeneration can erase all of a lesson's tasks. -/
theorem c10_empty_oracle_list_clears_tasks (st : State) (date : Str)
    (kvs : List (Str × Json)) (ts0 : List Json) (s : Str)
    (hd : dictGet st date = some (.obj kvs))
    (ht : dictGet kvs (S "tasks") = some (.arr ts0))
    (hne : ts0 ≠ [])
    (hb : canBuildTasksText (.arr ts0) = true)
    (hab : appCanBuildTasksText (.arr ts0) = true)
    (hp : processContent s = some (.arr [])) :
    regenerate_tasks_with_ai st date (some s) =
      some (true, dictSet st date (.obj (dictSet kvs (S "tasks") (.arr [])))) ∧
    app_regenerate_tasks_with_ai st date (some s) =
      some (true, dictSet st date (.obj (dictSet kvs (S "tasks") (.arr [])))) ∧
    dictGet (dictSet kvs (S "tasks") (.arr [])) (S "tasks") = some (.arr []) :=
  ⟨regen_success_goalgrid st date kvs ts0 s (.arr []) [] hd ht hne hb hp rfl,
   regen_success_app st date kvs ts0 s (.arr []) [] hd ht hne hab hp rfl,
   dictGet_dictSet_self _ _ _⟩

/-- C10 witness: the demo store, oracle replying the empty JSON list. -/
theorem c10_empty_oracle_list_clears_tasks_witness :
    regenerate_tasks_with_ai demoState (S "2024-06-01") (some (S "[]")) =
      some (true, dictSet demoState (S "2024-06-01")
        (.obj (dictSet demoKvs (S "tasks") (.arr [])))) ∧
    app_regenerate_tasks_with_ai demoState (S "2024-06-01") (some (S "[]")) =
      some (true, dictSet demoState (S "2024-06-01")
        (.obj (dictSet demoKvs (S "tasks") (.arr [])))) :=
  have h := c10_empty_oracle_list_clears_tasks demoState (S "2024-06-01")
    demoKvs demoTasks (S "[]") rfl rfl (by simp [demoTasks]) (by rfl) (by rfl) (by rfl)
  ⟨h.1, h.2.1⟩

/- ===== Shape of every persisted task dictionary ===== -/

theorem buildTasks_shape (xs : List Json) :
    ∀ (i : Nat) (updated : List Json), buildTasks i xs = some updated →
      ∀ d ∈ updated, ∃ v, d = storedTaskOfDescr v := by
  induction xs with
  | nil =>
    intro i updated h d hd
    simp only [buildTasks, Option.some_inj] at h
    subst h
    simp at hd
  | cons x rest ih =>
    intro i updated h d hd
    cases x with
    | obj kvs =>
      simp only [buildTasks] at h
      cases hb : buildTasks (i + 1) rest with
      | none => rw [hb] at h; simp at h
      | some r =>
        rw [hb] at h
        simp only [Option.map_some', Option.some_inj] at h
        subst h
        rcases List.mem_cons.mp hd with rfl | hmem
        · exact ⟨_, rfl⟩
        · exact ih (i + 1) r hb d hmem
    | null => simp [buildTasks] at h
    | bool b => simp [buildTasks] at h
    | num lex => simp [buildTasks] at h
    | str s2 => simp [buildTasks] at h
    | arr ys => simp [buildTasks] at h

theorem appBuildTasks_shape (xs : List Json) :
    ∀ (updated : List Json), appBuildTasks xs = some updated →
      ∀ d ∈ updated, ∃ v,
        d = .obj [(S "task", .obj [(S "task", v)]), (S "done", .bool false)] := by
  induction xs with
  | nil =>
    intro updated h d hd
    simp only [appBuildTasks, Option.some_inj] at h
    subst h
    simp at hd
  | cons x rest ih =>
    intro updated h d hd
    cases x with
    | obj kvs =>
      simp only [appBuildTasks] at h
      cases hb : appBuildTasks rest with
      | none => rw [hb] at h; simp at h
      | some r =>
        rw [hb] at h
        simp only [Option.map_some', Option.some_inj] at h
        subst h
        rcases List.mem_cons.mp hd with rfl | hmem
        · exact ⟨_, rfl⟩
        · exact ih r hb d hmem
    | null => simp [appBuildTasks] at h
    | bool b => simp [appBuildTasks] at h
    | num lex => simp [appBuildTasks] at h
    | str s2 => simp [appBuildTasks] at h
    | arr ys => simp [appBuildTasks] at h

/-- C9: every task dictionary persisted by generate_tasks_for_lesson or
regenerate_tasks_with_ai has exactly the keys done and task, with done
false at write time and task a singleton dict holding the task text; the
title supplied at Task construction is dropped by Task.to_dict (the
persisted dict does not depend on it), and no identifier or priority
field is ever written. -/
theorem c9_persisted_task_shape :
    (∀ title title2 descr : Json,
      (PyTask.init title descr).to_dict = (PyTask.init title2 descr).to_dict) ∧
    (∀ title descr : Json,
      (PyTask.init title descr).to_dict = storedTaskOfDescr descr ∧
      objKeys ((PyTask.init title descr).to_dict) = [S "done", S "task"]) ∧
    (∀ (j : Json) (updated : List Json), extractTasks j = some updated →
      ∀ d ∈ updated, ∃ v, d = storedTaskOfDescr v) ∧
    (∀ (j : Json) (updated : List Json), appExtractTasks j = some updated →
      ∀ d ∈ updated, ∃ v,
        d = .obj [(S "task", .obj [(S "task", v)]), (S "done", .bool false)]) ∧
    (∀ (L : Lesson) (n : Nat) (st : State), ∃ vs : List Json,
      ((generate_tasks_for_lesson L n st).2.1).tasks =
        L.tasks ++ vs.map storedTaskOfDescr) ∧
    (∀ v : Json, objKeys (storedTaskOfDescr v) = [S "done", S "task"]) := by
  refine ⟨fun _ _ _ => rfl, fun _ _ => ⟨rfl, rfl⟩, ?_, ?_, ?_, fun _ => rfl⟩
  · intro j updated h d hd
    cases j with
    | arr xs => exact buildTasks_shape xs 1 updated h d hd
    | null => simp [extractTasks] at h
    | bool b => simp [extractTasks] at h
    | num lex => simp [extractTasks] at h
    | str s2 => simp [extractTasks] at h
    | obj kvs => simp [extractTasks] at h
  · intro j updated h d hd
    cases j with
    | arr xs => exact appBuildTasks_shape xs updated h d hd
    | null => simp [appExtractTasks] at h
    | bool b => simp [appExtractTasks] at h
    | num lex => simp [appExtractTasks] at h
    | str s2 => simp [appExtractTasks] at h
    | obj kvs => simp [appExtractTasks] at h
  · intro L n st
    refine ⟨(List.range n).map (fun k =>
      .str (S ("Complete step " ++ toString (k + 1) ++ " for ") ++
            cApos :: pyStr L.title ++ [cApos])), ?_⟩
    simp only [generate_tasks_for_lesson, List.map_map]
    rfl

/-- C9 witness. -/
theorem c9_persisted_task_shape_witness :
    (PyTask.init (js "Easy A") (js "do X")).to_dict =
      (PyTask.init (js "Other title") (js "do X")).to_dict ∧
    (∃ v, storedTaskOfDescr (js "do X") = storedTaskOfDescr v) :=
  ⟨c9_persisted_task_shape.1 (js "Easy A") (js "Other title") (js "do X"),
   c9_persisted_task_shape.2.2.1
     (.arr [.obj [(S "title", js "Easy A"), (S "description", js "do X")]])
     [storedTaskOfDescr (js "do X")] (by rfl) _ (by simp)⟩

/- ===== Inversion of regenerate_tasks_with_ai ===== -/

theorem regen_inversion (st : State) (date : Str) (o : Option Str) (b : Bool)
    (st2 : State)
    (h : regenerate_tasks_with_ai st date o = some (b, st2)) :
    (b = false ∧ st2 = st) ∨
    (b = true ∧ ∃ kvs updated, dictGet st date = some (.obj kvs) ∧
      st2 = dictSet st date (.obj (dictSet kvs (S "tasks") (.arr updated)))) := by
  unfold regenerate_tasks_with_ai at h
  split at h
  · injection h with h1
    injection h1 with hb hst
    exact Or.inl ⟨hb.symm, hst.symm⟩
  · rename_i ld hd
    split at h
    · injection h with h1
      injection h1 with hb hst
      exact Or.inl ⟨hb.symm, hst.symm⟩
    · split at h
      · exact absurd h (by simp)
      · rename_i tasks hget
        split at h
        · injection h with h1
          injection h1 with hb hst
          exact Or.inl ⟨hb.symm, hst.symm⟩
        · split at h
          · injection h with h1
            injection h1 with hb hst
            exact Or.inl ⟨hb.symm, hst.symm⟩
          · split at h
            · injection h with h1
              injection h1 with hb hst
              exact Or.inl ⟨hb.symm, hst.symm⟩
            · rename_i s
              split at h
              · injection h with h1
                injection h1 with hb hst
                exact Or.inl ⟨hb.symm, hst.symm⟩
              · rename_i parsed hp
                split at h
                · injection h with h1
                  injection h1 with hb hst
                  exact Or.inl ⟨hb.symm, hst.symm⟩
                · rename_i updated he
                  cases ld with
                  | obj kvs =>
                    simp only [jsonSet] at h
                    injection h with h1
                    injection h1 with hb hst
                    exact Or.inr ⟨hb.symm, kvs, updated, hd, hst.symm⟩
                  | null => simp [Json.pyGet] at hget
                  | bool b2 => simp [Json.pyGet] at hget
                  | num lex => simp [Json.pyGet] at hget
                  | str s2 => simp [Json.pyGet] at hget
                  | arr ys => simp [Json.pyGet] at hget

/-- C2: a successful task replacement via regenerate_tasks_with_ai
changes nothing at other dates, and at the regenerated date rewrites only
the tasks field of the stored lesson: a read of every other field (title,
summary, lesson body, motivation, quote, ...) gives the original value. -/
theorem c2_regenerate_frame (st st' : State) (date : Str) (o : Option Str)
    (h : regenerate_tasks_with_ai st date o = some (true, st')) :
    (∀ d, d ≠ date → dictGet st' d = dictGet st d) ∧
    ∃ kvs updated,
      dictGet st date = some (.obj kvs) ∧
      dictGet st' date = some (.obj (dictSet kvs (S "tasks") (.arr updated))) ∧
      (∀ k, k ≠ S "tasks" →
        dictGet (dictSet kvs (S "tasks") (.arr updated)) k = dictGet kvs k) := by
  rcases regen_inversion st date o true st' h with ⟨hb, _⟩ | ⟨_, kvs, updated, hd, hst⟩
  · exact absurd hb (by simp)
  · subst hst
    exact ⟨fun d hdne => dictGet_dictSet_ne st date d _ hdne, kvs, updated, hd,
      dictGet_dictSet_self _ _ _, fun k hk => dictGet_dictSet_ne kvs _ k _ hk⟩

/-- C2 witness: the Easy-A regeneration of the demo store. -/
theorem c2_regenerate_frame_witness :
    (∀ d, d ≠ S "2024-06-01" → dictGet easyAState d = dictGet demoState d) ∧
    ∃ kvs updated,
      dictGet demoState (S "2024-06-01") = some (.obj kvs) ∧
      dictGet easyAState (S "2024-06-01") =
        some (.obj (dictSet kvs (S "tasks") (.arr updated))) ∧
      (∀ k, k ≠ S "tasks" →
        dictGet (dictSet kvs (S "tasks") (.arr updated)) k = dictGet kvs k) :=
  c2_regenerate_frame demoState easyAState (S "2024-06-01") (some oracleEasyA) (by rfl)

/- ===== The store state reached by any agent call sequence ===== -/

theorem create_state_shape (st : State) (today : Str) (o : Option Str)
    (pr : Lesson × State) (h : create_daily_lesson st today o = some pr) :
    pr.2 = dictSet st today pr.1.to_dict := by
  unfold create_daily_lesson at h
  dsimp only at h
  split at h
  · injection h with h1
    rw [← h1]
  · exact absurd h (by simp)

theorem stepOp_keysNodup (st : State) (op : AgentOp) (h : keysNodup st) :
    keysNodup (stepOp st op) := by
  cases op with
  | createLesson today o =>
    simp only [stepOp]
    cases hc : create_daily_lesson st today o with
    | none => simpa [hc] using h
    | some pr =>
      simp only [Option.map_some', Option.getD_some]
      rw [create_state_shape st today o pr hc]
      exact keysNodup_dictSet _ _ _ h
  | genTasks L n =>
    simp only [stepOp, generate_tasks_for_lesson]
    exact keysNodup_dictSet _ _ _ h
  | regenTasks d o =>
    simp only [stepOp]
    cases hr : regenerate_tasks_with_ai st d o with
    | none => simpa [hr] using h
    | some pr =>
      simp only [Option.map_some', Option.getD_some]
      rcases regen_inversion st d o pr.1 pr.2 (by rw [hr]) with
        ⟨_, hst⟩ | ⟨_, kvs, updated, _, hst⟩
      · rw [hst]; exact h
      · rw [hst]; exact keysNodup_dictSet _ _ _ h

/-- C4: starting from a store with at most one lesson per date, any
sequence of lesson-creating and task-writing agent calls preserves that
invariant: the lessons_by_date keys stay duplicate-free, later writes for
a date landing in the same slot. -/
theorem c4_at_most_one_lesson_per_date (st : State) (ops : List AgentOp)
    (h : keysNodup st) : keysNodup (runOps st ops) := by
  induction ops generalizing st with
  | nil => exact h
  | cons op rest ih => exact ih (stepOp st op) (stepOp_keysNodup st op h)

/-- C4 witness: an empty store driven through create, task generation and
regeneration calls. -/
theorem c4_at_most_one_lesson_per_date_witness :
    keysNodup (runOps []
      [AgentOp.createLesson (S "2024-06-01") none,
       AgentOp.genTasks demoLesson5 3,
       AgentOp.regenTasks (S "2024-06-01") (some (S "[]")),
       AgentOp.createLesson (S "2024-06-01") (some (S "oops"))]) :=
  c4_at_most_one_lesson_per_date [] _ (by simp [keysNodup])

/- ===== What the update loops build from a parsed list of objects ===== -/

theorem buildTasks_map_obj (okvss : List (List (Str × Json))) :
    ∀ i : Nat, buildTasks i (okvss.map Json.obj) =
      some ((List.enumFrom i okvss).map fun p =>
        storedTaskOfDescr ((dictGet p.2 (S "description")).getD
          (.str (S ("Complete step " ++ toString p.1))))) := by
  induction okvss with
  | nil => intro i; rfl
  | cons okvs rest ih =>
    intro i
    simp only [List.map_cons, buildTasks, ih (i + 1), Option.map_some']
    rfl

theorem appBuildTasks_map_obj (okvss : List (List (Str × Json))) :
    appBuildTasks (okvss.map Json.obj) = some (appStoredTasks okvss) := by
  induction okvss with
  | nil => rfl
  | cons okvs rest ih =>
    simp only [List.map_cons, appBuildTasks, ih, Option.map_some']
    rfl

/-- C6 (amended): on a parsed oracle reply that is a JSON list of
objects, regenerate_tasks_with_ai replaces the stored task sequence with
exactly one task per returned object; the goalgrid_agent.py variant
stores the returned description as the task text (the returned title is
dropped by Task.to_dict), while the app.py variant stores the returned
title (falling back to the description) as the task text; the app.py
conclusion assumes stored task texts its str.join accepts (strings),
since otherwise it returns false before calling the oracle. -/
theorem c6_regenerate_success_amended (st : State) (date : Str)
    (kvs : List (Str × Json)) (ts0 : List Json) (s : Str)
    (okvss : List (List (Str × Json)))
    (hd : dictGet st date = some (.obj kvs))
    (ht : dictGet kvs (S "tasks") = some (.arr ts0))
    (hne : ts0 ≠ [])
    (hb : canBuildTasksText (.arr ts0) = true)
    (hab : appCanBuildTasksText (.arr ts0) = true)
    (hp : processContent s = some (.arr (okvss.map Json.obj))) :
    regenerate_tasks_with_ai st date (some s) =
      some (true, dictSet st date (.obj (dictSet kvs (S "tasks")
        (.arr (goalgridStoredTasks okvss))))) ∧
    app_regenerate_tasks_with_ai st date (some s) =
      some (true, dictSet st date (.obj (dictSet kvs (S "tasks")
        (.arr (appStoredTasks okvss))))) ∧
    (goalgridStoredTasks okvss).length = okvss.length ∧
    (appStoredTasks okvss).length = okvss.length := by
  refine ⟨?_, ?_, ?_, by simp [appStoredTasks]⟩
  · exact regen_success_goalgrid st date kvs ts0 s _ _ hd ht hne hb hp
      (buildTasks_map_obj okvss 1)
  · exact regen_success_app st date kvs ts0 s _ _ hd ht hne hab hp
      (appBuildTasks_map_obj okvss)
  · simp [goalgridStoredTasks, List.enumFrom_length]

/-- C6 witness: the Easy-A scenario against the demo store. -/
theorem c6_regenerate_success_amended_witness :
    regenerate_tasks_with_ai demoState (S "2024-06-01") (some oracleEasyA) =
      some (true, dictSet demoState (S "2024-06-01") (.obj (dictSet demoKvs (S "tasks")
        (.arr (goalgridStoredTasks
          [[(S "title", js "Easy A"), (S "description", js "do X")]]))))) ∧
    app_regenerate_tasks_with_ai demoState (S "2024-06-01") (some oracleEasyA) =
      some (true, dictSet demoState (S "2024-06-01") (.obj (dictSet demoKvs (S "tasks")
        (.arr (appStoredTasks
          [[(S "title", js "Easy A"), (S "description", js "do X")]]))))) :=
  have h := c6_regenerate_success_amended demoState (S "2024-06-01") demoKvs
    demoTasks oracleEasyA [[(S "title", js "Easy A"), (S "description", js "do X")]]
    rfl rfl (by simp [demoTasks]) (by rfl) (by rfl) (by rfl)
  ⟨h.1, h.2.1⟩

/-- C6 counterexample: at the claim's example input — three stored tasks,
oracle replying one object titled Easy A with description do X — the
goalgrid_agent.py variant stores exactly one task whose text is the
description do X, and the string Easy A appears nowhere in the resulting
store: the stored task does not carry the returned title. -/
theorem c6_title_dropped_counterexample :
    regenerate_tasks_with_ai demoState (S "2024-06-01") (some oracleEasyA) =
      some (true, easyAState) ∧
    stateMentions (S "Easy A") easyAState = false ∧
    dictGet easyAState (S "2024-06-01") = some (.obj [(S "title", js "Focus"),
      (S "lesson", js "Body"), (S "summary", js "Su"),
      (S "tasks", .arr [storedTaskOfDescr (js "do X")])]) :=
  ⟨rfl, rfl, rfl⟩

/-- C5 (amended): generate_tasks_for_lesson(lesson, n) deterministically
appends exactly n placeholder tasks titled Step 1 .. Step n, each with
its done flag false and a persisted dict of exactly the keys done and
task; no task identifier exists anywhere (tasks carry no id field). -/
theorem c5_generate_tasks_amended (L : Lesson) (n : Nat) (st : State) :
    (generate_tasks_for_lesson L n st).1.length = n ∧
    (∀ i, i < n → (generate_tasks_for_lesson L n st).1[i]? =
      some (PyTask.init (.str (S ("Step " ++ toString (i + 1))))
        (.str (S ("Complete step " ++ toString (i + 1) ++ " for ") ++
               cApos :: pyStr L.title ++ [cApos])))) ∧
    (∀ t ∈ (generate_tasks_for_lesson L n st).1, t.done = false ∧
      objKeys t.to_dict = [S "done", S "task"]) ∧
    (generate_tasks_for_lesson L n st).2.1.tasks =
      L.tasks ++ (generate_tasks_for_lesson L n st).1.map PyTask.to_dict ∧
    (generate_tasks_for_lesson L n st).2.2 =
      dictSet st L.date ((generate_tasks_for_lesson L n st).2.1).to_dict := by
  refine ⟨?_, ?_, ?_, rfl, rfl⟩
  · simp [generate_tasks_for_lesson]
  · intro i hi
    simp only [generate_tasks_for_lesson]
    rw [List.getElem?_map, List.getElem?_range hi]
    rfl
  · intro t ht
    simp only [generate_tasks_for_lesson, List.mem_map] at ht
    obtain ⟨k, _, rfl⟩ := ht
    exact ⟨rfl, rfl⟩

/-- C5 witness: three generated tasks for the demo lesson. -/
theorem c5_generate_tasks_amended_witness :
    (generate_tasks_for_lesson demoLesson5 3 []).1.length = 3 ∧
    (generate_tasks_for_lesson demoLesson5 3 []).1[0]? =
      some (PyTask.init (.str (S ("Step " ++ toString (0 + 1))))
        (.str (S ("Complete step " ++ toString (0 + 1) ++ " for ") ++
               cApos :: pyStr demoLesson5.title ++ [cApos]))) :=
  ⟨(c5_generate_tasks_amended demoLesson5 3 []).1,
   (c5_generate_tasks_amended demoLesson5 3 []).2.1 0 (by decide)⟩

/-- C5 counterexample: at the claim's example input (date 2024-06-01,
n = 3), no identifier string 2024-06-01-task-1 of the claimed form
appears anywhere — not in the returned Task objects, not in the stored
document: the code attaches no task identifiers at all. -/
theorem c5_no_task_identifiers_counterexample :
    stateMentions (S "2024-06-01-task-1")
      (generate_tasks_for_lesson demoLesson5 3 []).2.2 = false ∧
    ((generate_tasks_for_lesson demoLesson5 3 []).1.any fun t =>
      jsonMentions (S "2024-06-01-task-1") t.title ||
      jsonMentions (S "2024-06-01-task-1") t.task) = false ∧
    (generate_tasks_for_lesson demoLesson5 3 []).1.map PyTask.to_dict =
      [storedTaskOfDescr (js "Complete step 1 for \x27T\x27"),
       storedTaskOfDescr (js "Complete step 2 for \x27T\x27"),
       storedTaskOfDescr (js "Complete step 3 for \x27T\x27")] :=
  ⟨rfl, rfl, rfl⟩

/- ===== String lemmas for the fence-stripping analysis ===== -/

theorem strPre_append_self (a b : Str) : strPre a (a ++ b) = true := by
  induction a with
  | nil => rfl
  | cons c cs ih => simp [strPre, ih]

theorem strPre_head_ne (c d : Char) (cs rest : Str) (h : c ≠ d) :
    strPre (c :: cs) (d :: rest) = false := by
  simp [strPre, h]

theorem sJson_chars :
    S "```json" = cBacktick :: cBacktick :: cBacktick :: 'j' :: 's' :: 'o' :: 'n' :: [] := by
  decide

theorem sFence_chars : S "```" = cBacktick :: cBacktick :: cBacktick :: [] := by
  decide

theorem dropWhile_cons_false (p : Char → Bool) (c : Char) (t : Str)
    (h : p c = false) : (c :: t).dropWhile p = c :: t := by
  simp [List.dropWhile_cons, h]

theorem dropTrail_last_false (p : Char → Bool) (c : Char) (t : Str)
    (h : p c = false) : dropTrail p (t ++ [c]) = t ++ [c] := by
  unfold dropTrail
  rw [List.reverse_append]
  simp only [List.reverse_cons, List.reverse_nil, List.nil_append, List.singleton_append]
  rw [dropWhile_cons_false p c t.reverse h]
  simp

theorem pyStrip_keep (c d : Char) (t t2 : Str) (s : Str)
    (h1 : s = c :: t) (h2 : s = t2 ++ [d])
    (hc : pySpace c = false) (hd2 : pySpace d = false) : pyStrip s = s := by
  unfold pyStrip
  rw [h1, dropWhile_cons_false pySpace c t hc, ← h1, h2,
    dropTrail_last_false pySpace d t2 hd2]

theorem dropTrail_append_nl (t : Str) :
    dropTrail pySpace (t ++ ['\n']) = dropTrail pySpace t := by
  unfold dropTrail
  rw [List.reverse_append]
  simp [List.dropWhile_cons, pySpace]

theorem pyStrip_wrap (p : Str) : pyStrip ('\n' :: (p ++ ['\n'])) = pyStrip p := by
  unfold pyStrip
  rw [List.dropWhile_cons]
  have hnl : pySpace '\n' = true := by decide
  rw [hnl]
  simp only [if_true]
  induction p with
  | nil => rfl
  | cons c p' ih =>
    cases hc : pySpace c with
    | true =>
      rw [List.cons_append, List.dropWhile_cons, List.dropWhile_cons, hc]
      simp only [if_true]
      exact ih
    | false =>
      rw [List.cons_append, dropWhile_cons_false pySpace c (p' ++ ['\n']) hc,
        dropWhile_cons_false pySpace c p' hc]
      exact dropTrail_append_nl (c :: p')

theorem mem_dropWhile_subset (p : Char → Bool) (s : Str) (x : Char)
    (h : x ∈ s.dropWhile p) : x ∈ s :=
  (List.dropWhile_sublist p (l := s)).mem h

theorem mem_pyStrip_subset (s : Str) (x : Char) (h : x ∈ pyStrip s) : x ∈ s := by
  unfold pyStrip dropTrail at h
  rw [List.mem_reverse] at h
  have h2 := mem_dropWhile_subset pySpace _ x h
  rw [List.mem_reverse] at h2
  exact mem_dropWhile_subset pySpace s x h2

/- ===== pySplit lemmas ===== -/

theorem pySplitF_nil (sep acc : Str) (f : Nat) :
    pySplitF sep f [] acc = [acc.reverse] := by
  cases f <;> simp [pySplitF]

theorem pySplitF_no_occ (sep : Str) (s : Str) (hocc : strOccurs sep s = false) :
    ∀ (acc : Str) (f : Nat), s.length ≤ f →
      pySplitF sep f s acc = [acc.reverse ++ s] := by
  induction s with
  | nil =>
    intro acc f _
    rw [pySplitF_nil]
    simp
  | cons c rest ih =>
    intro acc f hf
    simp only [strOccurs, Bool.or_eq_false_iff] at hocc
    cases f with
    | zero => simp only [List.length_cons] at hf; omega
    | succ f' =>
      simp only [pySplitF]
      rw [if_neg (by simp [hocc.1])]
      rw [ih hocc.2 (c :: acc) f' (by simp only [List.length_cons] at hf; omega)]
      simp

theorem pySplitF_at_sep (c : Char) (sep' t acc : Str) (f : Nat) :
    pySplitF (c :: sep') (f + 1) ((c :: sep') ++ t) acc =
      acc.reverse :: pySplitF (c :: sep') f t [] := by
  rw [List.cons_append]
  simp only [pySplitF]
  rw [if_pos (show strPre (c :: sep') (c :: (sep' ++ t)) = true from
    strPre_append_self (c :: sep') t)]
  simp only [List.length_cons, Nat.add_sub_cancel, List.drop_left]

theorem pySplitF_exact_sep (c : Char) (sep' acc : Str) (f : Nat) :
    pySplitF (c :: sep') (f + 1) (c :: sep') acc = [acc.reverse, []] := by
  have h := pySplitF_at_sep c sep' [] acc f
  rw [List.append_nil] at h
  rw [h, pySplitF_nil]
  rfl

theorem pySplitF_scan (sep₂ : Str) (a : Str) (ha : cBacktick ∉ a) :
    ∀ (rest acc : Str) (f : Nat), a.length + rest.length ≤ f →
      pySplitF (cBacktick :: sep₂) f (a ++ rest) acc =
        pySplitF (cBacktick :: sep₂) (f - a.length) rest (a.reverse ++ acc) := by
  induction a with
  | nil => intro rest acc f _; simp
  | cons c a' ih =>
    intro rest acc f hf
    have hc : cBacktick ≠ c := fun he => ha (by rw [he]; exact List.mem_cons_self c a')
    cases f with
    | zero => simp only [List.length_cons] at hf; omega
    | succ f' =>
      have hfu : (f' + 1) - (c :: a').length = f' - a'.length := by
        simp only [List.length_cons]
        omega
      have hacc : (c :: a').reverse ++ acc = a'.reverse ++ (c :: acc) := by simp
      rw [hfu, hacc, List.cons_append]
      simp only [pySplitF]
      rw [if_neg (by simp [strPre_head_ne cBacktick c sep₂ (a' ++ rest) hc])]
      exact ih (fun hm => ha (List.mem_cons_of_mem c hm)) rest (c :: acc) f'
        (by simp only [List.length_cons] at hf; omega)

theorem strOccurs_no_backtick (sep₂ s : Str) (h : cBacktick ∉ s) :
    strOccurs (cBacktick :: sep₂) s = false := by
  induction s with
  | nil => rfl
  | cons c rest ih =>
    have hc : cBacktick ≠ c := fun he => h (by rw [he]; exact List.mem_cons_self c rest)
    simp only [strOccurs, Bool.or_eq_false_iff]
    exact ⟨strPre_head_ne cBacktick c sep₂ rest hc,
      ih (fun hm => h (List.mem_cons_of_mem c hm))⟩

theorem occ_json_tail (p : Str) (hp : cBacktick ∉ p) :
    strOccurs (S "```json") (p ++ S "\n```") = false := by
  rw [sJson_chars]
  induction p with
  | nil => decide
  | cons c p' ih =>
    have hc : cBacktick ≠ c :=
      fun he => hp (by rw [he]; exact List.mem_cons_self c p')
    rw [List.cons_append]
    simp only [strOccurs, Bool.or_eq_false_iff]
    exact ⟨strPre_head_ne cBacktick c _ _ hc,
      ih (fun hm => hp (List.mem_cons_of_mem c hm))⟩

/- ===== The three fence-stripping shapes ===== -/

theorem splitF_fence_tail (p : Str) (hp : cBacktick ∉ p) (f : Nat)
    (hf : p.length + 5 ≤ f) :
    pySplitF (cBacktick :: cBacktick :: cBacktick :: []) f
      ('\n' :: (p ++ S "\n```")) [] = ['\n' :: (p ++ ['\n']), []] := by
  have hre : '\n' :: (p ++ S "\n```") =
      ('\n' :: (p ++ ['\n'])) ++ (cBacktick :: cBacktick :: cBacktick :: []) := by
    rw [← sFence_chars]
    have h0 : S "\n```" = '\n' :: S "```" := by decide
    rw [h0]
    simp
  have ha : cBacktick ∉ '\n' :: (p ++ ['\n']) := by
    intro hm
    rcases List.mem_cons.mp hm with he | hm2
    · exact absurd he (by decide)
    · rcases List.mem_append.mp hm2 with h3 | h3
      · exact hp h3
      · simp at h3
        exact absurd h3 (by decide)
  rw [hre]
  rw [pySplitF_scan (cBacktick :: cBacktick :: []) ('\n' :: (p ++ ['\n'])) ha
    (cBacktick :: cBacktick :: cBacktick :: []) [] f
    (by simp only [List.length_cons, List.length_append, List.length_singleton,
      List.length_nil]; omega)]
  have hlen2 : ('\n' :: (p ++ ['\n'])).length = p.length + 2 := by
    simp only [List.length_cons, List.length_append, List.length_singleton,
      List.length_nil]
  rw [hlen2]
  have hfe : f - (p.length + 2) = (f - (p.length + 3)) + 1 := by omega
  rw [hfe, pySplitF_exact_sep]
  simp

theorem no_backtick_nl_cons (p : Str) (hp : cBacktick ∉ p) :
    cBacktick ∉ '\n' :: p := by
  intro hm
  rcases List.mem_cons.mp hm with he | hm2
  · exact absurd he (by decide)
  · exact hp hm2

theorem split_json_fenced (p : Str) (hp : cBacktick ∉ p) :
    pySplit (S "```json") (fenceWrapJson p) = [[], '\n' :: (p ++ S "\n```")] := by
  unfold pySplit
  have hlen : (fenceWrapJson p).length = (p.length + 11) + 1 := by
    have l1 : (S "```json\n").length = 8 := rfl
    have l2 : (S "\n```").length = 4 := rfl
    show ((S "```json\n" ++ p) ++ S "\n```").length = (p.length + 11) + 1
    simp only [List.length_append, l1, l2]
    omega
  have hre : fenceWrapJson p = (S "```json") ++ ('\n' :: (p ++ S "\n```")) := rfl
  rw [hlen, hre, sJson_chars]
  rw [pySplitF_at_sep]
  have hocc : strOccurs (cBacktick :: cBacktick :: cBacktick :: 'j' :: 's' :: 'o' :: 'n' :: [])
      ('\n' :: (p ++ S "\n```")) = false := by
    have h0 := occ_json_tail ('\n' :: p) (no_backtick_nl_cons p hp)
    rw [sJson_chars] at h0
    exact h0
  rw [pySplitF_no_occ _ _ hocc [] (p.length + 11)
    (by simp only [List.length_cons, List.length_append]; have : (S "\n```").length = 4 := rfl; omega)]
  simp

theorem split_fence_piece (p : Str) (hp : cBacktick ∉ p) :
    pySplit (S "```") ('\n' :: (p ++ S "\n```")) = ['\n' :: (p ++ ['\n']), []] := by
  unfold pySplit
  have hlen : ('\n' :: (p ++ S "\n```")).length = p.length + 5 := by
    have l2 : (S "\n```").length = 4 := rfl
    simp only [List.length_cons, List.length_append, l2]
  rw [hlen, sFence_chars]
  exact splitF_fence_tail p hp (p.length + 5) (le_refl _)

theorem split_plain_fenced (p : Str) (hp : cBacktick ∉ p) :
    pySplit (S "```") (fenceWrapPlain p) = [[], '\n' :: (p ++ ['\n']), []] := by
  unfold pySplit
  have hlen : (fenceWrapPlain p).length = (p.length + 7) + 1 := by
    have l1 : (S "```\n").length = 4 := rfl
    have l2 : (S "\n```").length = 4 := rfl
    show ((S "```\n" ++ p) ++ S "\n```").length = (p.length + 7) + 1
    simp only [List.length_append, l1, l2]
    omega
  have hre : fenceWrapPlain p = (S "```") ++ ('\n' :: (p ++ S "\n```")) := rfl
  rw [hlen, hre, sFence_chars]
  rw [pySplitF_at_sep]
  rw [splitF_fence_tail p hp (p.length + 7) (by omega)]
  rfl

theorem split_no_backtick (sep₂ : Str) (a : Str) (ha : cBacktick ∉ a) :
    pySplit (cBacktick :: sep₂) a = [a] := by
  unfold pySplit
  rw [pySplitF_no_occ _ _ (strOccurs_no_backtick sep₂ a ha) [] a.length (le_refl _)]
  simp

theorem pyStrip_fenceJson (p : Str) : pyStrip (fenceWrapJson p) = fenceWrapJson p := by
  have h1 : fenceWrapJson p = cBacktick :: ((S "``json\n" ++ p) ++ S "\n```") := rfl
  have h2 : fenceWrapJson p = ((S "```json\n" ++ p) ++ S "\n``") ++ [cBacktick] := by
    show (S "```json\n" ++ p) ++ S "\n```" = _
    rw [show S "\n```" = S "\n``" ++ [cBacktick] from by decide]
    exact (List.append_assoc _ _ _).symm
  exact pyStrip_keep cBacktick cBacktick _ _ _ h1 h2 (by decide) (by decide)

theorem pyStrip_fencePlain (p : Str) : pyStrip (fenceWrapPlain p) = fenceWrapPlain p := by
  have h1 : fenceWrapPlain p = cBacktick :: ((S "``\n" ++ p) ++ S "\n```") := rfl
  have h2 : fenceWrapPlain p = ((S "```\n" ++ p) ++ S "\n``") ++ [cBacktick] := by
    show (S "```\n" ++ p) ++ S "\n```" = _
    rw [show S "\n```" = S "\n``" ++ [cBacktick] from by decide]
    exact (List.append_assoc _ _ _).symm
  exact pyStrip_keep cBacktick cBacktick _ _ _ h1 h2 (by decide) (by decide)

theorem stripFences_fenceJson (p : Str) (hp : cBacktick ∉ p) :
    stripFences (fenceWrapJson p) = some (pyStrip p) := by
  simp only [stripFences]
  rw [pyStrip_fenceJson p]
  rw [if_pos (show strPre (S "```json") (fenceWrapJson p) = true from
    strPre_append_self (S "```json") ('\n' :: (p ++ S "\n```")))]
  rw [split_json_fenced p hp]
  simp only [List.get?]
  rw [split_fence_piece p hp]
  simp only [List.headD]
  rw [show '\n' :: (p ++ ['\n']) = '\n' :: (p ++ ['\n']) from rfl, pyStrip_wrap p]

theorem strPre_json_of_plain (x : Str) :
    strPre (S "```json") (fenceWrapPlain x) = false := by
  have hjn : (('j' : Char) == '\n') = false := by decide
  rw [sJson_chars]
  show strPre _ (cBacktick :: cBacktick :: cBacktick :: '\n' :: (x ++ S "\n```")) = false
  simp [strPre, hjn]

theorem stripFences_fencePlain (p : Str) (hp : cBacktick ∉ p) :
    stripFences (fenceWrapPlain p) = some (pyStrip p) := by
  simp only [stripFences]
  rw [pyStrip_fencePlain p]
  rw [if_neg (by rw [strPre_json_of_plain p]; simp)]
  rw [if_pos (show strPre (S "```") (fenceWrapPlain p) = true from
    strPre_append_self (S "```") ('\n' :: (p ++ S "\n```")))]
  rw [split_plain_fenced p hp]
  simp only [List.get?]
  have hnb : cBacktick ∉ '\n' :: (p ++ ['\n']) := by
    intro hm
    rcases List.mem_cons.mp hm with he | hm2
    · exact absurd he (by decide)
    · rcases List.mem_append.mp hm2 with h3 | h3
      · exact hp h3
      · simp at h3
        exact absurd h3 (by decide)
  have hsp := split_no_backtick (cBacktick :: cBacktick :: []) ('\n' :: (p ++ ['\n'])) hnb
  rw [← sFence_chars] at hsp
  rw [hsp]
  simp only [List.headD]
  rw [pyStrip_wrap p]

theorem stripFences_bare (p : Str) (hp : cBacktick ∉ p) :
    stripFences p = some (pyStrip p) := by
  have hps : cBacktick ∉ pyStrip p := fun hm => hp (mem_pyStrip_subset p cBacktick hm)
  have h1 : ¬ (strPre (S "```json") (pyStrip p) = true) := by
    cases hcase : pyStrip p with
    | nil => rw [sJson_chars]; simp [strPre]
    | cons c t =>
      have hc : cBacktick ≠ c := fun he => hps (by rw [hcase, ← he]; exact he ▸ List.mem_cons_self c t)
      rw [sJson_chars]
      simp [strPre_head_ne cBacktick c _ t hc]
  have h2 : ¬ (strPre (S "```") (pyStrip p) = true) := by
    cases hcase : pyStrip p with
    | nil => rw [sFence_chars]; simp [strPre]
    | cons c t =>
      have hc : cBacktick ≠ c := fun he => hps (by rw [hcase, ← he]; exact he ▸ List.mem_cons_self c t)
      rw [sFence_chars]
      simp [strPre_head_ne cBacktick c _ t hc]
  simp only [stripFences]
  rw [if_neg h1, if_neg h2]

/-- C8 (amended): for every oracle payload p containing no backtick
character, processing the code-fenced texts built from p yields exactly
the stripped payload — hence the same parsed result as the bare payload —
and when the stripped text is not valid JSON the operations take their
local failure branch (fallback content, or false with the store
untouched) instead of propagating a parse exception. -/
theorem c8_fence_stripping_amended (p : Str) (st : State) (date : Str)
    (hp : cBacktick ∉ p) (hwf : lessonShapeOk (dictGet st date)) :
    stripFences (fenceWrapJson p) = some (pyStrip p) ∧
    stripFences (fenceWrapPlain p) = some (pyStrip p) ∧
    stripFences p = some (pyStrip p) ∧
    processContent (fenceWrapJson p) = processContent p ∧
    processContent (fenceWrapPlain p) = processContent p ∧
    (processContent p = none →
      generate_personalized_content (some p) = fallback_content ∧
      regenerate_tasks_with_ai st date (some p) = some (false, st)) := by
  have hj := stripFences_fenceJson p hp
  have hf := stripFences_fencePlain p hp
  have hb := stripFences_bare p hp
  refine ⟨hj, hf, hb, ?_, ?_, ?_⟩
  · unfold processContent
    rw [hj, hb]
  · unfold processContent
    rw [hf, hb]
  · intro hnone
    exact ⟨gen_content_of_fail (some p) (Or.inr ⟨p, rfl, hnone⟩),
      regen_fail_goalgrid st date (some p) hwf (Or.inr ⟨p, rfl, hnone⟩)⟩

/-- C8 counterexample: for the payload ["a```b"] — valid JSON whose string
content contains a code fence — the bare payload parses, but the
code-fenced wrapping of the very same payload is truncated by the
fence-stripping split and fails to parse: the claimed equivalence for
every payload is false. -/
theorem c8_backtick_payload_counterexample :
    processContent (S "[\x22a```b\x22]") = some (.arr [.str (S "a```b")]) ∧
    processContent (fenceWrapJson (S "[\x22a```b\x22]")) = none ∧
    stripFences (fenceWrapJson (S "[\x22a```b\x22]")) = some (S "[\x22a") :=
  ⟨rfl, rfl, rfl⟩

/-- C8 witness. -/
theorem c8_fence_stripping_amended_witness :
    stripFences (fenceWrapJson (S "[1]")) = some (pyStrip (S "[1]")) ∧
    processContent (fenceWrapJson (S "[1]")) = processContent (S "[1]") ∧
    processContent (fenceWrapPlain (S "[1]")) = processContent (S "[1]") :=
  have h := c8_fence_stripping_amended (S "[1]") demoState (S "2024-06-01")
    (by decide) (Or.inr ⟨_, rfl⟩)
  ⟨h.1, h.2.2.2.1, h.2.2.2.2.1⟩
